import Mathlib

/-!
Verification of the `quanta::Arena` bump-pointer allocator
(`src/include/quanta/Arena.hpp`).

The arena state is the triple of data members `buffer_`, `capacity_`, `pos_`.
`size_t` values are modelled as `Nat` reduced modulo `2 ^ 64` wherever the
C++ arithmetic can wrap.  Pointers are modelled as numeric addresses; the
buffer base address is the value returned by `::operator new(capacity)`.

`Common.hpp` (providing `is_power_of_2` and `align_up`) is not part of the
sources; those two helpers are modelled from the spec, as flagged in their
doc comments.
-/

namespace quanta

/-- Number of values of the 64-bit `size_t` type: `SIZE_MAX + 1`. -/
def SIZE : Nat := 2 ^ 64

/-- Modelled from the spec: `is_power_of_2` from the missing `Common.hpp`.
Decides whether a `size_t` value is a power of two ("`alignment` (must be a
power of two)"); the powers of two representable in `size_t` are
`2 ^ 0 .. 2 ^ 63`. -/
def is_power_of_2 (x : Nat) : Bool :=
  (List.range 64).any fun k => x == 2 ^ k

/-- The least multiple of `a` that is at least `p`: the spec's "round the
current `position` up to the next multiple of `alignment`", with no
machine-width reduction. -/
def roundUpSpec (p a : Nat) : Nat := ((p + a - 1) / a) * a

/-- Modelled from the spec: `align_up` from the missing `Common.hpp`.
Rounds `p` up to the next multiple of the power-of-two `a`; since the
function computes in and returns `size_t`, the result is reduced modulo
`2 ^ 64` (as the standard mask implementation `(p + a - 1) & ~(a - 1)`
does). -/
def align_up (p a : Nat) : Nat := roundUpSpec p a % SIZE

/-- The data members of `quanta::Arena`: `buffer_` (base address of the
owned storage, 0 for `nullptr`), `capacity_` and `pos_`. -/
structure Arena where
  buffer : Nat
  capacity : Nat
  pos : Nat
  deriving DecidableEq

/-- The default constructor `Arena()`: null buffer, capacity 0, position 0. -/
def Arena.empty : Arena := ⟨0, 0, 0⟩

/-- The sized constructor `Arena(size_t capacity)`: position 0 and a buffer
of `capacity` bytes whose base address `b` is whatever `::operator new`
returned. -/
def Arena.withCapacity (b capacity : Nat) : Arena := ⟨b, capacity, 0⟩

/-- `Arena::allocate(size_t size, size_t alignment)`.  Returns the address
of the allocation (`buffer_ + aligned_pos`) or `none` for `nullptr`,
together with the arena state after the call. -/
def allocate (a : Arena) (size alignment : Nat) : Option Nat × Arena :=
  if is_power_of_2 alignment = false ∨ size = 0 then (none, a)
  else if (align_up a.pos alignment + size) % SIZE < align_up a.pos alignment
      ∨ (align_up a.pos alignment + size) % SIZE > a.capacity then (none, a)
  else (some (a.buffer + align_up a.pos alignment),
        { a with pos := (align_up a.pos alignment + size) % SIZE })

/-- The typed form `Arena::allocate<T>(size_t count)`, with `sizeof(T)` and
`alignof(T)` passed explicitly.  `SIZE_MAX` is `SIZE - 1`; the product
`sizeof(T) * count` is a `size_t` multiplication, hence the modulus. -/
def allocateT (sizeofT alignofT : Nat) (a : Arena) (count : Nat) :
    Option Nat × Arena :=
  if count > (SIZE - 1) / sizeofT then (none, a)
  else allocate a (sizeofT * count % SIZE) alignofT

/-- `Arena::reset()`: sets `pos_` to 0. -/
def reset (a : Arena) : Arena := { a with pos := 0 }

/-- `Arena::used()`. -/
def used (a : Arena) : Nat := a.pos

/-- `Arena::available()`: `capacity_ - pos_` (a `size_t` subtraction; on
states satisfying `pos_ ≤ capacity_` it never underflows, which claim C4
establishes). -/
def available (a : Arena) : Nat := a.capacity - a.pos

/-- `Arena::owns(void* ptr)`: `ptr >= buffer_ && ptr < buffer_ + capacity_`. -/
def owns (a : Arena) (ptr : Nat) : Bool :=
  decide (a.buffer ≤ ptr) && decide (ptr < a.buffer + a.capacity)

/-- Move construction `Arena(Arena&& other)`: the pair (constructed arena,
drained source). -/
def moveConstruct (other : Arena) : Arena × Arena :=
  (⟨other.buffer, other.capacity, other.pos⟩, ⟨0, 0, 0⟩)

/-- Move assignment `operator=(Arena&& other)`: the pair (assigned
destination, source after the call).  `isSelf` models the `this != &other`
identity test; when it is true the two arguments are the same object and
the body does nothing. -/
def moveAssign (isSelf : Bool) (dst other : Arena) : Arena × Arena :=
  if isSelf then (dst, other)
  else (⟨other.buffer, other.capacity, other.pos⟩, ⟨0, 0, 0⟩)

/-- A driver for sequences of `allocate` calls: runs the requests
`(size, alignment)` in order and collects the `(address, size)` pairs of
the successful ones, together with the final arena state. -/
def runAllocs (a : Arena) : List (Nat × Nat) → List (Nat × Nat) × Arena
  | [] => ([], a)
  | r :: rest =>
    match allocate a r.1 r.2 with
    | (some p, a2) => ((p, r.1) :: (runAllocs a2 rest).1, (runAllocs a2 rest).2)
    | (none, a2) => runAllocs a2 rest

/-- States reachable from construction (default or sized) by `allocate`,
`reset`, move construction and move assignment, on either end of a move. -/
inductive Reachable : Arena → Prop
  | mkEmpty : Reachable Arena.empty
  | mkSized (b c : Nat) (hc : c < SIZE) : Reachable (Arena.withCapacity b c)
  | stepAlloc (a : Arena) (s al : Nat) (h : Reachable a) :
      Reachable (allocate a s al).2
  | stepReset (a : Arena) (h : Reachable a) : Reachable (reset a)
  | stepMoveDst (a : Arena) (h : Reachable a) : Reachable (moveConstruct a).1
  | stepMoveSrc (a : Arena) (h : Reachable a) : Reachable (moveConstruct a).2
  | stepMoveAssignDst (b : Bool) (dst src : Arena) (hd : Reachable dst)
      (hs : Reachable src) : Reachable (moveAssign b dst src).1
  | stepMoveAssignSrc (b : Bool) (dst src : Arena) (hd : Reachable dst)
      (hs : Reachable src) : Reachable (moveAssign b dst src).2

lemma is_power_of_2_iff (x : Nat) :
    is_power_of_2 x = true ↔ ∃ k, k < 64 ∧ x = 2 ^ k := by
  unfold is_power_of_2
  simp [List.any_eq_true, List.mem_range]

lemma pos_of_pow2 {x : Nat} (h : is_power_of_2 x = true) : 0 < x := by
  obtain ⟨k, -, rfl⟩ := (is_power_of_2_iff x).mp h
  exact Nat.pos_pow_of_pos k (by norm_num)

lemma pow2_le {x : Nat} (h : is_power_of_2 x = true) : x ≤ 2 ^ 63 := by
  obtain ⟨k, hk, rfl⟩ := (is_power_of_2_iff x).mp h
  exact Nat.pow_le_pow_right (by norm_num) (by omega)

lemma roundUpSpec_le (p a : Nat) : roundUpSpec p a ≤ p + a - 1 := by
  unfold roundUpSpec
  exact Nat.div_mul_le_self _ _

lemma le_roundUpSpec (p : Nat) {a : Nat} (ha : 0 < a) : p ≤ roundUpSpec p a := by
  unfold roundUpSpec
  have hdm := Nat.div_add_mod (p + a - 1) a
  have hlt : (p + a - 1) % a < a := Nat.mod_lt _ ha
  have hc : ((p + a - 1) / a) * a = a * ((p + a - 1) / a) := Nat.mul_comm _ _
  omega

lemma dvd_roundUpSpec (p a : Nat) : a ∣ roundUpSpec p a :=
  ⟨(p + a - 1) / a, Nat.mul_comm _ _⟩

lemma roundUpSpec_min (p : Nat) {a m : Nat} (ha : 0 < a) (hdvd : a ∣ m)
    (hle : p ≤ m) : roundUpSpec p a ≤ m := by
  obtain ⟨t, rfl⟩ := hdvd
  unfold roundUpSpec
  have hq : (p + a - 1) / a ≤ t := by
    have hexp : a * (t + 1) = a * t + a := by ring
    have hlt : p + a - 1 < a * (t + 1) := by omega
    exact Nat.lt_succ_iff.mp (Nat.div_lt_iff_lt_mul ha |>.mpr (by
      calc p + a - 1 < a * (t + 1) := hlt
        _ = (t + 1) * a := Nat.mul_comm _ _))
  calc (p + a - 1) / a * a ≤ t * a := Nat.mul_le_mul_right a hq
    _ = a * t := Nat.mul_comm _ _

lemma roundUpSpec_lt_SIZE {p al : Nat} (hp : p ≤ 2 ^ 63)
    (hal : is_power_of_2 al = true) : roundUpSpec p al < SIZE := by
  have h1 : roundUpSpec p al ≤ p + al - 1 := roundUpSpec_le p al
  have h2 : al ≤ 2 ^ 63 := pow2_le hal
  have h3 : 0 < al := pos_of_pow2 hal
  have hS : SIZE = 2 ^ 64 := rfl
  have : (2 : Nat) ^ 64 = 2 ^ 63 + 2 ^ 63 := by norm_num
  omega

lemma align_up_eq_roundUpSpec {p al : Nat} (hp : p ≤ 2 ^ 63)
    (hal : is_power_of_2 al = true) : align_up p al = roundUpSpec p al := by
  unfold align_up
  exact Nat.mod_eq_of_lt (roundUpSpec_lt_SIZE hp hal)

lemma allocate_none_eq {a : Arena} {s al : Nat} {a2 : Arena}
    (h : allocate a s al = (none, a2)) : a2 = a := by
  unfold allocate at h
  split at h
  · exact (Prod.mk.injEq _ _ _ _ ▸ h).2.symm
  · split at h
    · exact (Prod.mk.injEq _ _ _ _ ▸ h).2.symm
    · exact absurd (congrArg Prod.fst h) (by simp)

lemma allocate_fst_none {a : Arena} {s al : Nat}
    (h : (allocate a s al).1 = none) : (allocate a s al).2 = a := by
  have hpair : allocate a s al = (none, (allocate a s al).2) := by
    rw [← h]
  exact allocate_none_eq hpair

lemma allocate_buffer_capacity (a : Arena) (s al : Nat) :
    (allocate a s al).2.buffer = a.buffer ∧
      (allocate a s al).2.capacity = a.capacity := by
  unfold allocate
  split
  · exact ⟨rfl, rfl⟩
  · split
    · exact ⟨rfl, rfl⟩
    · exact ⟨rfl, rfl⟩

lemma allocate_pos_le (a : Arena) (s al : Nat) (hpos : a.pos ≤ a.capacity) :
    (allocate a s al).2.pos ≤ a.capacity := by
  unfold allocate
  split
  · exact hpos
  · split
    · exact hpos
    · rename_i hcond
      push_neg at hcond
      exact hcond.2

/-- Full characterization of a successful `allocate` call on a state with
`pos ≤ capacity ≤ 2 ^ 63` (any state actually reachable on a platform whose
maximal object size is below `2 ^ 63` bytes) and a `size_t` size. -/
lemma allocate_some {a : Arena} {s al p : Nat} {a2 : Arena}
    (hpos : a.pos ≤ a.capacity) (hcap : a.capacity ≤ 2 ^ 63) (hs : s < SIZE)
    (h : allocate a s al = (some p, a2)) :
    is_power_of_2 al = true ∧ s ≠ 0 ∧
      p = a.buffer + roundUpSpec a.pos al ∧
      a2 = ⟨a.buffer, a.capacity, roundUpSpec a.pos al + s⟩ ∧
      a.pos ≤ roundUpSpec a.pos al ∧
      roundUpSpec a.pos al + s ≤ a.capacity := by
  unfold allocate at h
  split at h
  · exact absurd (congrArg Prod.fst h) (by simp)
  · rename_i hcond1
    push_neg at hcond1
    have hal : is_power_of_2 al = true := by
      simpa using hcond1.1
    have hA : align_up a.pos al = roundUpSpec a.pos al :=
      align_up_eq_roundUpSpec (le_trans hpos hcap) hal
    have hAlt : roundUpSpec a.pos al < SIZE :=
      roundUpSpec_lt_SIZE (le_trans hpos hcap) hal
    split at h
    · exact absurd (congrArg Prod.fst h) (by simp)
    · rename_i hcond2
      push_neg at hcond2
      rw [hA] at h hcond2
      have hnw : roundUpSpec a.pos al + s < SIZE := by
        by_contra hge
        push_neg at hge
        have h2 : roundUpSpec a.pos al + s < 2 * SIZE := by
          have : (0 : Nat) < SIZE := by norm_num [SIZE]
          omega
        have hmod : (roundUpSpec a.pos al + s) % SIZE =
            roundUpSpec a.pos al + s - SIZE := by
          rw [Nat.mod_eq_sub_mod hge, Nat.mod_eq_of_lt (by omega)]
        omega
      rw [Nat.mod_eq_of_lt hnw] at h hcond2
      have hinj := Prod.mk.injEq _ _ _ _ ▸ h
      refine ⟨hal, hcond1.2, (Option.some.injEq _ _ ▸ hinj.1).symm, ?_, ?_, ?_⟩
      · cases a2
        cases a
        simp only [Arena.mk.injEq]
        have := hinj.2
        simp only [Arena.mk.injEq] at this
        exact ⟨this.1.symm, this.2.1.symm, this.2.2.symm⟩
      · exact le_roundUpSpec a.pos (pos_of_pow2 hal)
      · exact hcond2.2

lemma mod_SIZE_cases (x : Nat) (hx : x < 2 * SIZE) :
    (x < SIZE ∧ x % SIZE = x) ∨ (SIZE ≤ x ∧ x % SIZE = x - SIZE) := by
  rcases Nat.lt_or_ge x SIZE with h | h
  · exact Or.inl ⟨h, Nat.mod_eq_of_lt h⟩
  · exact Or.inr ⟨h, by rw [Nat.mod_eq_sub_mod h, Nat.mod_eq_of_lt (by omega)]⟩

/-- C2: `allocate(size, alignment)` fails exactly when the alignment is not
a power of two, the size is zero, `aligned_pos + size` overflows `size_t`,
or `aligned_pos + size` exceeds the capacity (`aligned_pos` being the
position rounded up to the next multiple of the alignment); in particular
every allocation on a capacity-0 arena fails, and an overflowing
combination is rejected rather than wrapped into an in-bounds pointer.
The hypotheses say the state is well formed (`pos ≤ capacity`), the
capacity is at most `2 ^ 63` (true of every object a 64-bit platform can
allocate, as object sizes are bounded by `PTRDIFF_MAX`), and the size is a
`size_t` value. -/
theorem allocate_fails_iff (a : Arena) (s al : Nat)
    (hpos : a.pos ≤ a.capacity) (hcap : a.capacity ≤ 2 ^ 63) (hs : s < SIZE) :
    ((allocate a s al).1 = none ↔
      is_power_of_2 al = false ∨ s = 0 ∨
      SIZE ≤ roundUpSpec a.pos al + s ∨
      a.capacity < roundUpSpec a.pos al + s) ∧
    (a.capacity = 0 → (allocate a s al).1 = none) := by
  have hp63 : a.pos ≤ 2 ^ 63 := le_trans hpos hcap
  have hiff : (allocate a s al).1 = none ↔
      is_power_of_2 al = false ∨ s = 0 ∨
      SIZE ≤ roundUpSpec a.pos al + s ∨
      a.capacity < roundUpSpec a.pos al + s := by
    unfold allocate
    split
    · rename_i h1
      constructor
      · intro _
        rcases h1 with h | h
        · exact Or.inl h
        · exact Or.inr (Or.inl h)
      · intro _
        rfl
    · rename_i h1
      push_neg at h1
      have hal : is_power_of_2 al = true := by simpa using h1.1
      have hA := align_up_eq_roundUpSpec hp63 hal
      have hAlt := roundUpSpec_lt_SIZE hp63 hal
      rw [hA]
      rcases mod_SIZE_cases (roundUpSpec a.pos al + s) (by omega) with
        ⟨hlt, hmod⟩ | ⟨hge, hmod⟩
      · rw [hmod]
        split
        · rename_i h2
          constructor
          · intro _
            exact Or.inr (Or.inr (Or.inr (by omega)))
          · intro _
            rfl
        · rename_i h2
          push_neg at h2
          constructor
          · intro hfalse
            exact absurd hfalse (by simp)
          · rintro (h | h | h | h)
            · exact absurd h (by simp [hal])
            · exact absurd h h1.2
            · omega
            · omega
      · rw [hmod]
        rw [if_pos (Or.inl (show roundUpSpec a.pos al + s - SIZE <
            roundUpSpec a.pos al by omega))]
        constructor
        · intro _
          exact Or.inr (Or.inr (Or.inl hge))
        · intro _
          rfl
  refine ⟨hiff, fun hc0 => hiff.mpr ?_⟩
  by_cases h0 : s = 0
  · exact Or.inr (Or.inl h0)
  · exact Or.inr (Or.inr (Or.inr (by omega)))

/-- Witness for C2 at a concrete input: arena of capacity 100 at
position 7, request of 4 bytes with (invalid) alignment 3. -/
theorem allocate_fails_iff_witness :
    (7 : Nat) ≤ 100 ∧ (100 : Nat) ≤ 2 ^ 63 ∧ (4 : Nat) < SIZE ∧
    (((allocate ⟨0, 100, 7⟩ 4 3).1 = none ↔
        is_power_of_2 3 = false ∨ (4 : Nat) = 0 ∨
        SIZE ≤ roundUpSpec 7 3 + 4 ∨ (100 : Nat) < roundUpSpec 7 3 + 4) ∧
      ((100 : Nat) = 0 → (allocate ⟨0, 100, 7⟩ 4 3).1 = none)) :=
  ⟨by decide, by decide, by decide,
    allocate_fails_iff ⟨0, 100, 7⟩ 4 3 (by decide) (by decide) (by decide)⟩

/-- C3: whenever `allocate` fails, the arena's whole observable state
(buffer, capacity and position) is exactly as before the call. -/
theorem allocate_failure_preserves_state (a : Arena) (s al : Nat)
    (h : (allocate a s al).1 = none) : (allocate a s al).2 = a :=
  allocate_fst_none h

/-- Witness for C3 at a concrete input: a zero-size request fails and
leaves the arena untouched. -/
theorem allocate_failure_preserves_state_witness :
    (allocate ⟨0, 10, 0⟩ 0 1).1 = none ∧
      (allocate ⟨0, 10, 0⟩ 0 1).2 = ⟨0, 10, 0⟩ :=
  ⟨by decide, allocate_failure_preserves_state ⟨0, 10, 0⟩ 0 1 (by decide)⟩

/-- C1 fails on the code: `allocate` aligns only the offset into the
buffer, while `::operator new(capacity)` guarantees only fundamental
alignment (16 bytes on common 64-bit platforms), so an over-aligned
request can come back misaligned.  Concretely: a fresh arena whose buffer
base address is 16 (a 16-byte-aligned address that a conforming
`::operator new` may return) answers `allocate(1, 128)` with address 16,
and `16 % 128 ≠ 0` even though `16 % 16 = 0`. -/
theorem overaligned_request_misaligned_pointer :
    (allocate (Arena.withCapacity 16 1024) 1 128).1 = some 16 ∧
      16 % 128 ≠ 0 ∧ 16 % 16 = 0 := by
  decide

/-- C4: in every state reachable from construction through `allocate`,
`reset` and the move operations, `position ≤ capacity` holds, and hence
`available() + used() == capacity()` (the subtraction in `available`
never underflows). -/
theorem reachable_invariant (a : Arena) (h : Reachable a) :
    a.pos ≤ a.capacity ∧ available a + used a = a.capacity := by
  have hinv : a.pos ≤ a.capacity := by
    induction h with
    | mkEmpty => exact Nat.le_refl 0
    | mkSized b c hc => exact Nat.zero_le c
    | stepAlloc a s al h ih =>
      have h1 := allocate_pos_le a s al ih
      have h2 := (allocate_buffer_capacity a s al).2
      omega
    | stepReset a h ih => exact Nat.zero_le _
    | stepMoveDst a h ih => exact ih
    | stepMoveSrc a h ih => exact Nat.le_refl 0
    | stepMoveAssignDst b dst src hd hs ihd ihs =>
      cases b
      · simpa [moveAssign] using ihs
      · simpa [moveAssign] using ihd
    | stepMoveAssignSrc b dst src hd hs ihd ihs =>
      cases b
      · simp [moveAssign]
      · simpa [moveAssign] using ihs
  refine ⟨hinv, ?_⟩
  unfold available used
  omega

/-- Witness for C4 at a concrete reachable state: the default-constructed
arena. -/
theorem reachable_invariant_witness :
    Arena.empty.pos ≤ Arena.empty.capacity ∧
      available Arena.empty + used Arena.empty = Arena.empty.capacity :=
  reachable_invariant Arena.empty Reachable.mkEmpty

/-- C6: a successful `allocate(size, alignment)` returns
`buffer + aligned_pos` where `aligned_pos` is the least multiple of the
alignment that is at least the pre-call position, the new position
reported by `used()` is `aligned_pos + size`, and `used()` does not
decrease.  Hypotheses as in C2. -/
theorem allocate_success_spec (a : Arena) (s al p : Nat) (a2 : Arena)
    (hpos : a.pos ≤ a.capacity) (hcap : a.capacity ≤ 2 ^ 63) (hs : s < SIZE)
    (h : allocate a s al = (some p, a2)) :
    al ∣ roundUpSpec a.pos al ∧ a.pos ≤ roundUpSpec a.pos al ∧
    (∀ m, al ∣ m → a.pos ≤ m → roundUpSpec a.pos al ≤ m) ∧
    p = a.buffer + roundUpSpec a.pos al ∧
    used a2 = roundUpSpec a.pos al + s ∧
    used a ≤ used a2 := by
  obtain ⟨hal, hs0, hp, ha2, hle, hcb⟩ := allocate_some hpos hcap hs h
  have hpos2 : 0 < al := pos_of_pow2 hal
  refine ⟨dvd_roundUpSpec _ _, hle,
    fun m hd hm => roundUpSpec_min _ hpos2 hd hm, hp, ?_, ?_⟩
  · rw [ha2]
    rfl
  · rw [ha2]
    unfold used
    simp only []
    omega

/-- Witness for C6 at a concrete input: arena of capacity 100 at
position 3; `allocate(5, 4)` returns offset 4 and position 9. -/
theorem allocate_success_spec_witness :
    (3 : Nat) ≤ 100 ∧ (100 : Nat) ≤ 2 ^ 63 ∧ (5 : Nat) < SIZE ∧
    allocate ⟨0, 100, 3⟩ 5 4 = (some 4, ⟨0, 100, 9⟩) ∧
    (4 ∣ roundUpSpec 3 4 ∧ (3 : Nat) ≤ roundUpSpec 3 4 ∧
      (∀ m, 4 ∣ m → 3 ≤ m → roundUpSpec 3 4 ≤ m) ∧
      (4 : Nat) = 0 + roundUpSpec 3 4 ∧
      used ⟨0, 100, 9⟩ = roundUpSpec 3 4 + 5 ∧
      used ⟨0, 100, 3⟩ ≤ used ⟨0, 100, 9⟩) :=
  ⟨by decide, by decide, by decide, by decide,
    allocate_success_spec ⟨0, 100, 3⟩ 5 4 4 ⟨0, 100, 9⟩
      (by decide) (by decide) (by decide) (by decide)⟩

lemma runAllocs_strong (reqs : List (Nat × Nat)) :
    ∀ a : Arena, a.pos ≤ a.capacity → a.capacity ≤ 2 ^ 63 →
      (∀ r ∈ reqs, r.1 < SIZE) →
      (∀ x ∈ (runAllocs a reqs).1,
          a.buffer + a.pos ≤ x.1 ∧ x.1 + x.2 ≤ a.buffer + a.capacity) ∧
      (runAllocs a reqs).1.Pairwise (fun x y => x.1 + x.2 ≤ y.1) := by
  induction reqs with
  | nil =>
    intro a _ _ _
    simp [runAllocs]
  | cons r rest ih =>
    intro a hpos hcap hreq
    have hs : r.1 < SIZE := hreq r (List.mem_cons_self r rest)
    have hrest : ∀ x ∈ rest, x.1 < SIZE :=
      fun x hx => hreq x (List.mem_cons_of_mem r hx)
    rcases hh : allocate a r.1 r.2 with ⟨o, a2⟩
    cases o with
    | none =>
      have ha2 : a2 = a := allocate_none_eq hh
      subst ha2
      have ihs := ih a2 hpos hcap hrest
      simpa [runAllocs, hh] using ihs
    | some p =>
      obtain ⟨hal, hs0, hp, ha2eq, hle, hcb⟩ := allocate_some hpos hcap hs hh
      have hbuf : a2.buffer = a.buffer := by rw [ha2eq]
      have hcap2eq : a2.capacity = a.capacity := by rw [ha2eq]
      have hpos2eq : a2.pos = roundUpSpec a.pos r.2 + r.1 := by rw [ha2eq]
      have ihs := ih a2 (by rw [hpos2eq, hcap2eq]; exact hcb)
        (by rw [hcap2eq]; exact hcap) hrest
      have hrun : runAllocs a (r :: rest) =
          ((p, r.1) :: (runAllocs a2 rest).1, (runAllocs a2 rest).2) := by
        simp [runAllocs, hh]
      rw [hrun]
      constructor
      · intro x hx
        rcases List.mem_cons.mp hx with hx1 | hx2
        · subst hx1
          constructor
          · rw [hp]
            omega
          · rw [hp]
            simp only []
            omega
        · obtain ⟨hb1, hb2⟩ := ihs.1 x hx2
          rw [hbuf, hpos2eq] at hb1
          rw [hbuf, hcap2eq] at hb2
          exact ⟨by omega, hb2⟩
      · rw [List.pairwise_cons]
        refine ⟨fun y hy => ?_, ihs.2⟩
        have := (ihs.1 y hy).1
        rw [hbuf, hpos2eq] at this
        rw [hp]
        simp only []
        omega

/-- C5: for every sequence of `allocate` calls starting from a
well-formed state (position 0 after construction or `reset` included),
the address ranges of the successful allocations are pairwise disjoint
and each lies fully inside the arena's region.  Hypotheses as in C2, with
each request size a `size_t` value. -/
theorem allocations_disjoint_in_bounds (a : Arena) (reqs : List (Nat × Nat))
    (hpos : a.pos ≤ a.capacity) (hcap : a.capacity ≤ 2 ^ 63)
    (hreq : ∀ r ∈ reqs, r.1 < SIZE) :
    (runAllocs a reqs).1.Pairwise
      (fun x y => x.1 + x.2 ≤ y.1 ∨ y.1 + y.2 ≤ x.1) ∧
    ∀ x ∈ (runAllocs a reqs).1,
      a.buffer ≤ x.1 ∧ x.1 + x.2 ≤ a.buffer + a.capacity := by
  obtain ⟨hb, hpw⟩ := runAllocs_strong reqs a hpos hcap hreq
  refine ⟨hpw.imp fun h => Or.inl h, fun x hx => ?_⟩
  obtain ⟨h1, h2⟩ := hb x hx
  exact ⟨le_trans (Nat.le_add_right _ _) h1, h2⟩

/-- Witness for C5 at a concrete input: two successful requests on a
fresh arena of capacity 100. -/
theorem allocations_disjoint_in_bounds_witness :
    (0 : Nat) ≤ 100 ∧ (100 : Nat) ≤ 2 ^ 63 ∧
    (∀ r ∈ [((10 : Nat), (1 : Nat)), (20, 8)], r.1 < SIZE) ∧
    ((runAllocs ⟨0, 100, 0⟩ [(10, 1), (20, 8)]).1.Pairwise
        (fun x y => x.1 + x.2 ≤ y.1 ∨ y.1 + y.2 ≤ x.1) ∧
      ∀ x ∈ (runAllocs ⟨0, 100, 0⟩ [(10, 1), (20, 8)]).1,
        (0 : Nat) ≤ x.1 ∧ x.1 + x.2 ≤ 0 + 100) :=
  ⟨by decide, by decide, by decide,
    allocations_disjoint_in_bounds ⟨0, 100, 0⟩ [(10, 1), (20, 8)]
      (by decide) (by decide) (by decide)⟩

/-- C7: move construction and move assignment transfer buffer, capacity
and position to the destination and leave the source in the default state
(null buffer, capacity 0, position 0); the destination then owns exactly
the addresses the source owned; move assignment to self is a no-op. -/
theorem move_semantics_spec (a dst : Arena) :
    moveConstruct a = (a, Arena.empty) ∧
    used (moveConstruct a).2 = 0 ∧ (moveConstruct a).2.capacity = 0 ∧
    used (moveConstruct a).1 = used a ∧
    (moveConstruct a).1.capacity = a.capacity ∧
    (∀ q, owns (moveConstruct a).1 q = owns a q) ∧
    moveAssign false dst a = (a, Arena.empty) ∧
    moveAssign true a a = (a, a) :=
  ⟨rfl, rfl, rfl, rfl, rfl, fun _ => rfl, rfl, rfl⟩

/-- C8: `reset` zeroes the position and touches nothing else, is
idempotent, and afterwards a single allocation can take the whole
capacity.  The hypotheses say the capacity is nonzero (else no allocation
can succeed at all) and is a `size_t` value. -/
theorem reset_spec (a : Arena) (h0 : 0 < a.capacity) (hc : a.capacity < SIZE) :
    reset a = ⟨a.buffer, a.capacity, 0⟩ ∧
    used (reset a) = 0 ∧ available (reset a) = a.capacity ∧
    reset (reset a) = reset a ∧
    allocate (reset a) a.capacity 1 =
      (some a.buffer, ⟨a.buffer, a.capacity, a.capacity⟩) ∧
    used ⟨a.buffer, a.capacity, a.capacity⟩ = a.capacity ∧
    available ⟨a.buffer, a.capacity, a.capacity⟩ = 0 := by
  have h1 : is_power_of_2 1 = true := by decide
  refine ⟨rfl, rfl, by simp [available, reset], rfl, ?_, rfl, by simp [available]⟩
  unfold allocate reset align_up roundUpSpec
  simp only []
  rw [if_neg (by simp [h1]; omega)]
  have hA : (0 + 1 - 1) / 1 * 1 % SIZE = 0 := by norm_num
  rw [hA]
  rw [if_neg (by rw [Nat.zero_add, Nat.mod_eq_of_lt hc]; omega)]
  rw [Nat.zero_add, Nat.mod_eq_of_lt hc, Nat.add_zero]

/-- Witness for C8 at a concrete input: an arena of capacity 8 at
position 5. -/
theorem reset_spec_witness :
    (0 : Nat) < 8 ∧ (8 : Nat) < SIZE ∧
    (reset ⟨7, 8, 5⟩ = ⟨7, 8, 0⟩ ∧
      used (reset ⟨7, 8, 5⟩) = 0 ∧ available (reset ⟨7, 8, 5⟩) = 8 ∧
      reset (reset ⟨7, 8, 5⟩) = reset ⟨7, 8, 5⟩ ∧
      allocate (reset ⟨7, 8, 5⟩) 8 1 = (some 7, ⟨7, 8, 8⟩) ∧
      used ⟨7, 8, 8⟩ = 8 ∧ available ⟨7, 8, 8⟩ = 0) :=
  ⟨by decide, by decide, reset_spec ⟨7, 8, 5⟩ (by decide) (by decide)⟩

/-- C9: the typed `allocate<T>(count)` fails up front exactly when
`sizeof(T) * count` does not fit in `size_t`, and otherwise behaves as
the byte-level `allocate(sizeof(T) * count, alignof(T))`.  The hypothesis
is `sizeof(T) ≥ 1`, which holds for every C++ type. -/
theorem typed_allocate_spec (s al cnt : Nat) (a : Arena) (hs : 0 < s) :
    allocateT s al a cnt =
      if SIZE ≤ s * cnt then (none, a) else allocate a (s * cnt) al := by
  unfold allocateT
  by_cases h : cnt > (SIZE - 1) / s
  · have hover : SIZE ≤ s * cnt := by
      have := (Nat.div_lt_iff_lt_mul hs).mp h
      have hpos : (0 : Nat) < SIZE := by norm_num [SIZE]
      have : SIZE - 1 < cnt * s := this
      have hcomm : cnt * s = s * cnt := Nat.mul_comm _ _
      omega
    rw [if_pos h, if_pos hover]
  · push_neg at h
    have hunder : s * cnt < SIZE := by
      have := (Nat.le_div_iff_mul_le hs).mp h
      have hpos : (0 : Nat) < SIZE := by norm_num [SIZE]
      have hcomm : cnt * s = s * cnt := Nat.mul_comm _ _
      omega
    rw [if_neg (by omega), if_neg (by omega), Nat.mod_eq_of_lt hunder]

/-- Witness for C9 at a concrete input: `sizeof(T) = 4`, `alignof(T) = 4`,
`count = 2` on a fresh arena of capacity 100. -/
theorem typed_allocate_spec_witness :
    (0 : Nat) < 4 ∧
    allocateT 4 4 ⟨0, 100, 0⟩ 2 =
      (if SIZE ≤ 4 * 2 then (none, (⟨0, 100, 0⟩ : Arena))
       else allocate ⟨0, 100, 0⟩ (4 * 2) 4) :=
  ⟨by decide, typed_allocate_spec 4 4 2 ⟨0, 100, 0⟩ (by decide)⟩

/-- C10: the typed `allocate<T>(0)` always fails and leaves the arena
unchanged: the overflow guard passes, and the delegated byte-level call
rejects the zero total size. -/
theorem typed_allocate_zero_count (s al : Nat) (a : Arena) :
    allocateT s al a 0 = (none, a) := by
  unfold allocateT
  rw [if_neg (Nat.not_lt_zero _)]
  rw [Nat.mul_zero, Nat.zero_mod]
  unfold allocate
  rw [if_pos (Or.inr rfl)]

end quanta
